import Mathlib

/-!
# Verification of the ewallet balance-derivation engine

Shallow embedding of the core of `src/utils.ts` (the Snapshot Aggregator
`calculateBalances`, the Incremental Month Ledger `getDailyBalancesForMonth`)
and of the filtered-summary reducer in `src/App.tsx`, together with proofs
about them.

Modelling conventions:
* A transaction's `date` is an ISO `YYYY-MM-DD` string in the source, always
  parsed to the UTC-midnight timestamp of that calendar day; since every
  timestamp the engine compares lies on a day boundary, dates are embedded as
  `Nat` day indices with the same total order.  A month is the contiguous
  range of day indices `[first, first + daysInMonth)`, where `first` is the
  index of the month's day 1.
* JS `number` arithmetic is embedded as exact arithmetic over `ℚ`.
* The optional boolean fields `isWithdrawable` / `isPositive` are
  `Option Bool`; JS truthiness of a possibly-`undefined` boolean is `truthy`.
* The `type` field is a string in the source (an import can produce any
  string), so it is embedded as `String`; the switch compares it against the
  seven known literals.
-/

/-- JS truthiness of an optional boolean field: `undefined` is falsy. -/
def truthy : Option Bool → Bool
  | some b => b
  | none => false

/-- The `Transaction` record of `src/types.ts`.  `date` is the day index of
the transaction's calendar day (see the module conventions). -/
structure Transaction where
  id : String
  date : Nat
  amount : ℚ
  type : String
  description : String
  lender : Option String := none
  isWithdrawable : Option Bool := none
  isPositive : Option Bool := none
  customName : Option String := none
  tags : Option (List String) := none
deriving DecidableEq

/-- The `{liquid, netWorth}` accumulator of `calculateBalances`. -/
structure Balances where
  liquid : ℚ
  netWorth : ℚ
deriving DecidableEq

/-- One step of the `switch (t.type)` in `calculateBalances`
(`src/utils.ts` lines 35–69), including the redundant nested
`isWithdrawable` conditionals of the `INVESTMENT` branch and the absence of
a `LOAN_REPAY` case (the switch falls through, leaving the accumulator
unchanged). -/
def applyTx (acc : Balances) (t : Transaction) : Balances :=
  if t.type = "INCOME" ∨ t.type = "DEPOSIT" then
    ⟨acc.liquid + t.amount, acc.netWorth + t.amount⟩
  else if t.type = "EXPENSE" then
    ⟨acc.liquid - t.amount, acc.netWorth - t.amount⟩
  else if t.type = "LOAN_IN" then
    ⟨acc.liquid + t.amount, acc.netWorth⟩
  else if t.type = "INVESTMENT" then
    if truthy t.isWithdrawable then
      if ¬ truthy t.isWithdrawable then
        ⟨acc.liquid - t.amount, acc.netWorth⟩
      else acc
    else
      if truthy t.isWithdrawable then
        ⟨acc.liquid - t.amount + t.amount, acc.netWorth⟩
      else
        ⟨acc.liquid - t.amount, acc.netWorth⟩
  else if t.type = "CUSTOM" then
    if truthy t.isPositive then
      ⟨acc.liquid + t.amount, acc.netWorth + t.amount⟩
    else
      ⟨acc.liquid - t.amount, acc.netWorth - t.amount⟩
  else acc

/-- The cutoff test of `calculateBalances`: with a target date, a transaction
is skipped exactly when its date is strictly after the cutoff; with no target
date the cutoff is `Infinity` and everything passes. -/
def passesCutoff (targetDate : Option Nat) (t : Transaction) : Bool :=
  match targetDate with
  | some c => decide (t.date ≤ c)
  | none => true

/-- The aggregator `calculateBalances` (`src/utils.ts` lines 26–72): reduce over the
transaction list from `{liquid: 0, netWorth: 0}`, skipping transactions
dated strictly after the cutoff. -/
def calculateBalances (transactions : List Transaction)
    (targetDate : Option Nat := none) : Balances :=
  transactions.foldl
    (fun acc t => if passesCutoff targetDate t then applyTx acc t else acc)
    ⟨0, 0⟩

/-- The per-transaction liquid update of the month-ledger sweep
(`src/utils.ts` lines 91–96 and 108–113): three independent `if`
statements over the running total, written as their combined delta. -/
def sweepDelta (t : Transaction) : ℚ :=
  (if t.type = "INCOME" ∨ t.type = "DEPOSIT" ∨ t.type = "LOAN_IN" ∨
      (t.type = "CUSTOM" ∧ truthy t.isPositive) then t.amount else 0)
  + (if t.type = "EXPENSE" ∨ (t.type = "CUSTOM" ∧ ¬ truthy t.isPositive)
      then -t.amount else 0)
  + (if t.type = "INVESTMENT" then
      -t.amount + (if truthy t.isWithdrawable then t.amount else 0) else 0)

/-- One of the `while` loops of `getDailyBalancesForMonth`: consume
transactions from the front of the (sorted) list while they satisfy `p`,
adding each one's sweep delta to the running liquid total; return the
unconsumed suffix and the new total. -/
def consumeWhile (p : Transaction → Bool) :
    List Transaction → ℚ → List Transaction × ℚ
  | [], acc => ([], acc)
  | t :: rest, acc =>
    if p t then consumeWhile p rest (acc + sweepDelta t) else (t :: rest, acc)

/-- The day loop of `getDailyBalancesForMonth`: starting at the day with
index `dayNum`, for each of the `k` remaining days consume the transactions
dated on or before that day and record the running total. -/
def sweepDays : Nat → Nat → List Transaction → ℚ → List ℚ
  | _, 0, _, _ => []
  | dayNum, k + 1, rem, running =>
    (consumeWhile (fun t => decide (t.date ≤ dayNum)) rem running).2 ::
      sweepDays (dayNum + 1) k
        (consumeWhile (fun t => decide (t.date ≤ dayNum)) rem running).1
        (consumeWhile (fun t => decide (t.date ≤ dayNum)) rem running).2

/-- Insert a transaction into a list sorted by ascending date. -/
def insertByDate (t : Transaction) : List Transaction → List Transaction
  | [] => [t]
  | u :: rest =>
    if t.date ≤ u.date then t :: u :: rest else u :: insertByDate t rest

/-- The `sort` by ascending date performed once at the start of
`getDailyBalancesForMonth` (`[...transactions].sort(...)`), embedded as an
insertion sort: only sortedness and the underlying multiset matter to the
sweep. -/
def sortByDate : List Transaction → List Transaction
  | [] => []
  | t :: rest => insertByDate t (sortByDate rest)

/-- The month ledger `getDailyBalancesForMonth` (`src/utils.ts` lines 75–119) for the month
whose day 1 has index `first` and which has `daysInMonth` days: sort once,
consume the strict-past prefix to establish the baseline, then sweep the
days, producing the list of end-of-day liquid balances for days
`1, …, daysInMonth` (index `i` holds day `i + 1`, whose day index is
`first + i`). -/
def getDailyBalancesForMonth (transactions : List Transaction)
    (first daysInMonth : Nat) : List ℚ :=
  sweepDays first daysInMonth
    ((consumeWhile (fun t => decide (t.date < first))
        (sortByDate transactions) 0).1)
    ((consumeWhile (fun t => decide (t.date < first))
        (sortByDate transactions) 0).2)

/-- The `{totalIncome, totalExpense, count}` record of `filteredSummary`. -/
structure Summary where
  totalIncome : ℚ
  totalExpense : ℚ
  count : Nat
deriving DecidableEq

/-- One iteration of the `forEach` in `filteredSummary`
(`src/App.tsx` lines 280–306); the first
`if (t.type === 'INVESTMENT' && t.isWithdrawable)` block of the source
contains only comments and is omitted. -/
def summaryStep (acc : ℚ × ℚ) (t : Transaction) : ℚ × ℚ :=
  if t.type = "INCOME" ∨ t.type = "DEPOSIT" ∨ t.type = "LOAN_IN" ∨
      (t.type = "CUSTOM" ∧ truthy t.isPositive) then
    (acc.1 + t.amount, acc.2)
  else if t.type = "EXPENSE" ∨ t.type = "LOAN_REPAY" ∨
      (t.type = "CUSTOM" ∧ ¬ truthy t.isPositive) ∨ t.type = "INVESTMENT" then
    let e := acc.2 + t.amount
    let e := if t.type = "INVESTMENT" ∧ truthy t.isWithdrawable then
        e - t.amount else e
    (acc.1, e)
  else acc

/-- The reducer `filteredSummary` (`src/App.tsx` lines 280–306), as a function of the
already-filtered transaction list. -/
def filteredSummary (filteredTransactions : List Transaction) : Summary :=
  let p := filteredTransactions.foldl summaryStep (0, 0)
  ⟨p.1, p.2, filteredTransactions.length⟩

/-- Closed form of the liquid delta a single transaction contributes in
`calculateBalances`. -/
def dL (t : Transaction) : ℚ :=
  if t.type = "INCOME" ∨ t.type = "DEPOSIT" then t.amount
  else if t.type = "EXPENSE" then -t.amount
  else if t.type = "LOAN_IN" then t.amount
  else if t.type = "INVESTMENT" then
    if truthy t.isWithdrawable then 0 else -t.amount
  else if t.type = "CUSTOM" then
    if truthy t.isPositive then t.amount else -t.amount
  else 0

/-- Closed form of the net-worth delta a single transaction contributes in
`calculateBalances`. -/
def dN (t : Transaction) : ℚ :=
  if t.type = "INCOME" ∨ t.type = "DEPOSIT" then t.amount
  else if t.type = "EXPENSE" then -t.amount
  else if t.type = "CUSTOM" then
    if truthy t.isPositive then t.amount else -t.amount
  else 0

/-- The liquid balance as of end of the day with index `c`, as a direct sum
over the (unsorted) transaction list; the specification-level value the
month ledger is compared against. -/
def liquidUpTo (transactions : List Transaction) (c : Nat) : ℚ :=
  ((transactions.filter (fun t => decide (t.date ≤ c))).map sweepDelta).sum

/-- Baseline carried into a month: the sweep deltas of all transactions
dated strictly before the month's day 1. -/
def monthBaseline (transactions : List Transaction) (first : Nat) : ℚ :=
  ((transactions.filter (fun t => decide (t.date < first))).map sweepDelta).sum

/-- The seven members of the `TransactionType` union of `src/types.ts`. -/
def knownTypes : List String :=
  ["INCOME", "EXPENSE", "LOAN_IN", "LOAN_REPAY", "INVESTMENT", "DEPOSIT",
   "CUSTOM"]

/-- Replace an absent optional flag by `false` (and keep a present flag),
the substitution claim C10 is about. -/
def fillFlags (t : Transaction) : Transaction :=
  { t with isWithdrawable := some (truthy t.isWithdrawable),
           isPositive := some (truthy t.isPositive) }

/-- Sum of the amounts of the transactions whose classifier liquid delta is
strictly positive (the classifier's delta of `t` is what
`calculateBalances` computes on the singleton `[t]`). -/
def positiveDeltaSum (transactions : List Transaction) : ℚ :=
  ((transactions.filter
      (fun t => decide (0 < (calculateBalances [t] none).liquid))).map
    (fun t => t.amount)).sum

/-- Sum of the amounts of the transactions whose classifier liquid delta is
strictly negative. -/
def negativeDeltaSum (transactions : List Transaction) : ℚ :=
  ((transactions.filter
      (fun t => decide ((calculateBalances [t] none).liquid < 0))).map
    (fun t => t.amount)).sum

/-! ## Closed forms for the aggregator -/

/-- One switch step adds the closed-form deltas to both components. -/
lemma applyTx_eq (acc : Balances) (t : Transaction) :
    applyTx acc t = ⟨acc.liquid + dL t, acc.netWorth + dN t⟩ := by
  cases acc with
  | mk l n =>
    unfold applyTx dL dN
    split_ifs <;> simp_all <;>
      (try refine ⟨?_, ?_⟩) <;> (try ring) <;> trivial

/-- The reduce of `calculateBalances`, from an arbitrary accumulator. -/
lemma calcFold_eq (td : Option Nat) :
    ∀ (txns : List Transaction) (acc : Balances),
      txns.foldl
          (fun acc t => if passesCutoff td t then applyTx acc t else acc) acc
        = ⟨acc.liquid + ((txns.filter (passesCutoff td)).map dL).sum,
           acc.netWorth + ((txns.filter (passesCutoff td)).map dN).sum⟩
  | [], acc => by simp
  | t :: rest, acc => by
    rw [List.foldl_cons]
    by_cases h : passesCutoff td t
    · rw [if_pos h, calcFold_eq td rest, applyTx_eq]
      simp [List.filter_cons, h]
      constructor <;> ring
    · rw [if_neg h, calcFold_eq td rest]
      simp [List.filter_cons, h]

/-- The aggregator as a pair of filtered delta sums. -/
lemma calculateBalances_eq (txns : List Transaction) (td : Option Nat) :
    calculateBalances txns td
      = ⟨((txns.filter (passesCutoff td)).map dL).sum,
         ((txns.filter (passesCutoff td)).map dN).sum⟩ := by
  unfold calculateBalances
  rw [calcFold_eq]
  simp

/-- The per-transaction liquid delta of the month-ledger sweep equals the
per-transaction liquid delta of `calculateBalances`. -/
lemma sweepDelta_eq_dL (t : Transaction) : sweepDelta t = dL t := by
  unfold sweepDelta dL
  by_cases h1 : t.type = "INCOME" <;>
    by_cases h2 : t.type = "DEPOSIT" <;>
    by_cases h3 : t.type = "EXPENSE" <;>
    by_cases h4 : t.type = "LOAN_IN" <;>
    by_cases h5 : t.type = "INVESTMENT" <;>
    by_cases h6 : t.type = "CUSTOM" <;>
    simp_all <;> split_ifs <;> simp_all <;> ring

/-- Unconditionally, `consumeWhile` is `takeWhile`/`dropWhile` with a delta sum. -/
lemma consumeWhile_eq (p : Transaction → Bool) :
    ∀ (l : List Transaction) (acc : ℚ),
      consumeWhile p l acc
        = (l.dropWhile p, acc + ((l.takeWhile p).map sweepDelta).sum)
  | [], acc => by simp [consumeWhile]
  | t :: rest, acc => by
    by_cases h : p t
    · rw [consumeWhile, if_pos h, consumeWhile_eq p rest]
      simp [List.takeWhile_cons, List.dropWhile_cons, h]
      ring
    · rw [consumeWhile, if_neg h]
      simp [List.takeWhile_cons, List.dropWhile_cons, h]

/-! ## The sort of the month ledger -/

/-- Sortedness by ascending date, the invariant the sweep relies on. -/
abbrev DateSorted (l : List Transaction) : Prop :=
  l.Pairwise (fun a b => a.date ≤ b.date)

lemma insertByDate_perm (t : Transaction) :
    ∀ l : List Transaction, (insertByDate t l).Perm (t :: l)
  | [] => by simp [insertByDate]
  | u :: rest => by
    unfold insertByDate
    split_ifs with h
    · exact List.Perm.refl _
    · exact ((insertByDate_perm t rest).cons u).trans (List.Perm.swap t u rest)

lemma sortByDate_perm : ∀ l : List Transaction, (sortByDate l).Perm l
  | [] => List.Perm.refl _
  | t :: rest =>
    (insertByDate_perm t (sortByDate rest)).trans ((sortByDate_perm rest).cons t)

lemma insertByDate_sorted (t : Transaction) :
    ∀ l : List Transaction, DateSorted l → DateSorted (insertByDate t l)
  | [], _ => by simp [insertByDate]
  | u :: rest, h => by
    have hu := (List.pairwise_cons.mp h).1
    have hrest := (List.pairwise_cons.mp h).2
    unfold insertByDate
    split_ifs with hd
    · refine List.pairwise_cons.mpr ⟨?_, h⟩
      intro b hb
      rcases List.mem_cons.mp hb with hb | hb
      · subst hb; exact hd
      · exact le_trans hd (hu b hb)
    · refine List.pairwise_cons.mpr
        ⟨?_, insertByDate_sorted t rest hrest⟩
      intro b hb
      rw [(insertByDate_perm t rest).mem_iff] at hb
      rcases List.mem_cons.mp hb with hb | hb
      · subst hb; omega
      · exact hu b hb

lemma sortByDate_sorted : ∀ l : List Transaction, DateSorted (sortByDate l)
  | [] => List.Pairwise.nil
  | t :: rest => insertByDate_sorted t (sortByDate rest) (sortByDate_sorted rest)

/-- In a date-sorted list, a predicate that is closed downwards along the
date order makes `takeWhile` and `dropWhile` agree with `filter`. -/
lemma takeWhile_dropWhile_of_sorted (p : Transaction → Bool)
    (hp : ∀ a b : Transaction, a.date ≤ b.date → p b = true → p a = true) :
    ∀ l : List Transaction, DateSorted l →
      l.takeWhile p = l.filter p ∧
        l.dropWhile p = l.filter (fun t => ! p t)
  | [], _ => by simp
  | t :: rest, h => by
    have ht := (List.pairwise_cons.mp h).1
    have hrest := (List.pairwise_cons.mp h).2
    have ih := takeWhile_dropWhile_of_sorted p hp rest hrest
    by_cases hpt : p t
    · simp [List.takeWhile_cons, List.dropWhile_cons, List.filter_cons, hpt,
        ih.1, ih.2]
    · have hall : ∀ b ∈ rest, ¬ p b = true := by
        intro b hb hpb
        exact hpt (hp t b (ht b hb) hpb)
      constructor
      · simp only [List.takeWhile_cons, List.filter_cons]
        rw [if_neg hpt, if_neg (by simpa using hpt)]
        exact (List.filter_eq_nil_iff.mpr hall).symm
      · simp only [List.dropWhile_cons, List.filter_cons]
        rw [if_neg hpt, if_pos (by simpa using hpt)]
        congr 1
        exact (List.filter_eq_self.mpr (by intro a ha; simpa using hall a ha)).symm

/-! ## Characterizing the month ledger -/

/-- Splitting a `≤`-filtered delta sum at the boundary day. -/
lemma sum_split (l : List Transaction) (c : Nat) :
    ((l.filter (fun t => decide (t.date < c))).map sweepDelta).sum
      + ((l.filter (fun t => decide (t.date = c))).map sweepDelta).sum
    = ((l.filter (fun t => decide (t.date ≤ c))).map sweepDelta).sum := by
  induction l with
  | nil => simp
  | cons t rest ih =>
    rcases Nat.lt_trichotomy t.date c with h | h | h
    · simp only [List.filter_cons, decide_eq_true_eq]
      rw [if_pos h, if_neg (Nat.ne_of_lt h), if_pos (Nat.le_of_lt h)]
      simp only [List.map_cons, List.sum_cons]
      linarith [ih]
    · simp only [List.filter_cons, decide_eq_true_eq]
      rw [if_neg (by omega), if_pos h, if_pos (by omega)]
      simp only [List.map_cons, List.sum_cons]
      linarith [ih]
    · simp only [List.filter_cons, decide_eq_true_eq]
      rw [if_neg (by omega), if_neg (by omega), if_neg (by omega)]
      exact ih

lemma sweepDays_length :
    ∀ (dayNum k : Nat) (rem : List Transaction) (running : ℚ),
      (sweepDays dayNum k rem running).length = k
  | _, 0, _, _ => rfl
  | dayNum, k + 1, rem, running => by
    unfold sweepDays
    rw [List.length_cons, sweepDays_length (dayNum + 1) k]

/-- The day sweep, characterized: if the remaining sorted list holds exactly
the transactions dated on or after `dayNum` and the running total holds the
deltas of everything dated before `dayNum`, then entry `i` of the sweep is
the delta sum of all transactions dated up to day `dayNum + i`. -/
lemma sweepDays_get (F : List Transaction) :
    ∀ (k dayNum : Nat) (rem : List Transaction) (running : ℚ),
      DateSorted rem →
      rem.Perm (F.filter (fun t => decide (dayNum ≤ t.date))) →
      running
        = ((F.filter (fun t => decide (t.date < dayNum))).map sweepDelta).sum →
      ∀ i, i < k →
        (sweepDays dayNum k rem running)[i]? = some (liquidUpTo F (dayNum + i))
  | 0, _, _, _, _, _, _ => by intro i hi; omega
  | k + 1, dayNum, rem, running, hsort, hperm, hrun => by
    intro i hi
    have hq : ∀ a b : Transaction, a.date ≤ b.date →
        (fun t => decide (t.date ≤ dayNum)) b = true →
        (fun t => decide (t.date ≤ dayNum)) a = true := by
      intro a b hab hb
      simp only [decide_eq_true_eq] at hb ⊢
      omega
    have htd := takeWhile_dropWhile_of_sorted _ hq rem hsort
    have hcw := consumeWhile_eq (fun t => decide (t.date ≤ dayNum)) rem running
    rw [htd.1, htd.2] at hcw
    have htake :
        ((rem.filter (fun t => decide (t.date ≤ dayNum))).map sweepDelta).sum
          = ((F.filter (fun t => decide (t.date = dayNum))).map
              sweepDelta).sum := by
      have h1 := (hperm.filter (fun t => decide (t.date ≤ dayNum))).map sweepDelta
      rw [h1.sum_eq, List.filter_filter]
      congr 1
      congr 1
      apply List.filter_congr
      intro a _
      rw [Bool.eq_iff_iff]
      simp only [Bool.and_eq_true, Bool.not_eq_true', Bool.not_eq_true,
        decide_eq_true_eq, decide_eq_false_iff_not]
      omega
    have hrun' : running
          + ((rem.filter (fun t => decide (t.date ≤ dayNum))).map
              sweepDelta).sum
        = ((F.filter (fun t => decide (t.date ≤ dayNum))).map sweepDelta).sum := by
      rw [htake, hrun, sum_split]
    match i, hi with
    | 0, _ =>
      unfold sweepDays
      rw [List.getElem?_cons_zero, hcw]
      have h0 : liquidUpTo F (dayNum + 0)
          = running
            + ((rem.filter (fun t => decide (t.date ≤ dayNum))).map
                sweepDelta).sum := by
        show liquidUpTo F dayNum = _
        unfold liquidUpTo
        exact hrun'.symm
      rw [h0]
    | i + 1, hi =>
      unfold sweepDays
      rw [List.getElem?_cons_succ, hcw]
      have hsort' : DateSorted
          (rem.filter (fun t => ! decide (t.date ≤ dayNum))) :=
        List.Pairwise.filter _ hsort
      have hperm' :
          (rem.filter (fun t => ! decide (t.date ≤ dayNum))).Perm
            (F.filter (fun t => decide (dayNum + 1 ≤ t.date))) := by
        refine (hperm.filter (fun t => ! decide (t.date ≤ dayNum))).trans ?_
        rw [List.filter_filter]
        apply List.Perm.of_eq
        apply List.filter_congr
        intro a _
        rw [Bool.eq_iff_iff]
        simp only [Bool.and_eq_true, Bool.not_eq_true', Bool.not_eq_true,
          decide_eq_true_eq, decide_eq_false_iff_not]
        omega
      have hrun'' : running
            + ((rem.filter (fun t => decide (t.date ≤ dayNum))).map
                sweepDelta).sum
          = ((F.filter (fun t => decide (t.date < dayNum + 1))).map
              sweepDelta).sum := by
        rw [hrun']
        congr 1
        congr 1
        apply List.filter_congr
        intro a _
        rw [Bool.eq_iff_iff]
        simp only [Bool.and_eq_true, Bool.not_eq_true', Bool.not_eq_true,
          decide_eq_true_eq, decide_eq_false_iff_not]
        omega
      have := sweepDays_get F k (dayNum + 1)
        (rem.filter (fun t => ! decide (t.date ≤ dayNum)))
        (running
          + ((rem.filter (fun t => decide (t.date ≤ dayNum))).map
              sweepDelta).sum)
        hsort' hperm' hrun'' i (by omega)
      rw [this]
      congr 2
      omega

/-- The month ledger has one entry per day of the month. -/
lemma ledger_length (txns : List Transaction) (first len : Nat) :
    (getDailyBalancesForMonth txns first len).length = len := by
  unfold getDailyBalancesForMonth
  exact sweepDays_length first len _ _

/-- Entry `i` of the month ledger (day `i + 1`, whose day index is
`first + i`) is the delta sum of every transaction dated on or before that
day. -/
lemma ledger_getElem (txns : List Transaction) (first len i : Nat)
    (h : i < len) :
    (getDailyBalancesForMonth txns first len)[i]?
      = some (liquidUpTo txns (first + i)) := by
  unfold getDailyBalancesForMonth
  have hr : ∀ a b : Transaction, a.date ≤ b.date →
      (fun t => decide (t.date < first)) b = true →
      (fun t => decide (t.date < first)) a = true := by
    intro a b hab hb
    simp only [decide_eq_true_eq] at hb ⊢
    omega
  have hsorted := sortByDate_sorted txns
  have hperm0 := sortByDate_perm txns
  have htd := takeWhile_dropWhile_of_sorted _ hr (sortByDate txns) hsorted
  have hcw := consumeWhile_eq (fun t => decide (t.date < first))
    (sortByDate txns) 0
  rw [htd.1, htd.2] at hcw
  rw [hcw]
  apply sweepDays_get txns len first
  · exact List.Pairwise.filter _ hsorted
  · refine (hperm0.filter (fun t => ! decide (t.date < first))).trans ?_
    apply List.Perm.of_eq
    apply List.filter_congr
    intro a _
    rw [Bool.eq_iff_iff]
    simp only [Bool.and_eq_true, Bool.not_eq_true', Bool.not_eq_true,
      decide_eq_true_eq, decide_eq_false_iff_not]
    omega
  · rw [zero_add, ((hperm0.filter
      (fun t => decide (t.date < first))).map sweepDelta).sum_eq]
  · exact h

/-- The spec-level daily liquid value agrees with the aggregator's liquid
component at the same cutoff. -/
lemma liquidUpTo_eq_calc (txns : List Transaction) (c : Nat) :
    liquidUpTo txns c = (calculateBalances txns (some c)).liquid := by
  rw [calculateBalances_eq]
  unfold liquidUpTo
  have h1 : sweepDelta = dL := funext sweepDelta_eq_dL
  have h2 : passesCutoff (some c) = fun t => decide (t.date ≤ c) := rfl
  rw [h1, h2]

/-! ## Per-transaction helper lemmas -/

/-- Prepending a transaction that passes the cutoff adds its two deltas. -/
lemma calc_cons_pos (t : Transaction) (txns : List Transaction)
    (td : Option Nat) (hc : passesCutoff td t = true) :
    calculateBalances (t :: txns) td
      = ⟨dL t + (calculateBalances txns td).liquid,
         dN t + (calculateBalances txns td).netWorth⟩ := by
  rw [calculateBalances_eq, calculateBalances_eq]
  simp [List.filter_cons, hc]

/-- Prepending a transaction that misses the cutoff changes nothing. -/
lemma calc_cons_neg (t : Transaction) (txns : List Transaction)
    (td : Option Nat) (hc : ¬ passesCutoff td t = true) :
    calculateBalances (t :: txns) td = calculateBalances txns td := by
  rw [calculateBalances_eq, calculateBalances_eq]
  simp [List.filter_cons, hc]

/-- A transaction whose type is outside the seven union members contributes
zero through every delta function. -/
lemma unknown_deltas (t : Transaction) (h : t.type ∉ knownTypes) :
    dL t = 0 ∧ dN t = 0 ∧ sweepDelta t = 0 := by
  simp only [knownTypes, List.mem_cons, List.mem_singleton, not_or] at h
  obtain ⟨h1, h2, h3, h4, h5, h6, h7⟩ := h
  refine ⟨?_, ?_, ?_⟩ <;>
    simp [dL, dN, sweepDelta, h1, h2, h3, h4, h5, h6, h7]

lemma dL_fillFlags (t : Transaction) : dL (fillFlags t) = dL t := rfl

lemma dN_fillFlags (t : Transaction) : dN (fillFlags t) = dN t := rfl

lemma sweepDelta_fillFlags (t : Transaction) :
    sweepDelta (fillFlags t) = sweepDelta t := rfl

lemma passesCutoff_fillFlags (td : Option Nat) (t : Transaction) :
    passesCutoff td (fillFlags t) = passesCutoff td t := rfl

/-- Defaulting absent flags to `false` does not change the daily liquid
sums. -/
lemma liquidUpTo_fillFlags (txns : List Transaction) (c : Nat) :
    liquidUpTo (txns.map fillFlags) c = liquidUpTo txns c := by
  unfold liquidUpTo
  rw [List.filter_map, List.map_map]
  have h1 : ((fun t : Transaction => decide (t.date ≤ c)) ∘ fillFlags)
      = fun t : Transaction => decide (t.date ≤ c) := funext fun t => rfl
  have h2 : sweepDelta ∘ fillFlags = sweepDelta := funext fun t => rfl
  rw [h1, h2]

/-! ## Concrete transactions for witnesses and counterexamples -/

/-- A salary-style income transaction. -/
def tx1 : Transaction :=
  { id := "t1", date := 11, amount := 1000, type := "INCOME",
    description := "salary" }

/-- An expense transaction. -/
def tx2 : Transaction :=
  { id := "t2", date := 15, amount := 200, type := "EXPENSE",
    description := "food" }

/-- A loan-repayment transaction (the type the aggregator's switch has no
case for). -/
def repayTx : Transaction :=
  { id := "r1", date := 3, amount := 100, type := "LOAN_REPAY",
    description := "repay", lender := some "Bank" }

/-- A locked investment. -/
def invLocked : Transaction :=
  { id := "i1", date := 12, amount := 300, type := "INVESTMENT",
    description := "fund", isWithdrawable := some false }

/-- A Custom transaction whose `isPositive` flag is absent. -/
def customNone : Transaction :=
  { id := "c1", date := 2, amount := 50, type := "CUSTOM",
    description := "misc", isPositive := none }

/-! ## The claims -/

/-- C1: refuted on the code — the aggregator's switch has no `LOAN_REPAY`
case, so a RepayLoan transaction contributes zero (not −amount) to the
liquid total, and the month-ledger sweep never subtracts it either: on a
single LOAN_REPAY of amount 100 the aggregator yields liquid 0 (the claim
requires −100) and every day balance of its month is 0. -/
theorem c1_loan_repay_contributes_zero :
    calculateBalances [repayTx] none = ⟨0, 0⟩
      ∧ getDailyBalancesForMonth [repayTx] 1 5 = [0, 0, 0, 0, 0]
      ∧ sweepDelta repayTx = 0
      ∧ (0 : ℚ) ≠ -100 := by
  refine ⟨?_, ?_, ?_, by norm_num⟩
  · simp [calculateBalances, applyTx, passesCutoff, repayTx]
  · simp [getDailyBalancesForMonth, sweepDays, consumeWhile, sortByDate,
      insertByDate, sweepDelta, repayTx]
  · simp [sweepDelta, repayTx]

/-- C2: for every transaction list, month (day 1 has day index `first`,
`len` days), and day `i + 1` of that month, the month ledger's entry equals
the liquid component of the snapshot aggregator cut off at that day's
index. -/
theorem c2_month_ledger_consistency (txns : List Transaction)
    (first len i : Nat) (h : i < len) :
    (getDailyBalancesForMonth txns first len)[i]?
      = some ((calculateBalances txns (some (first + i))).liquid) := by
  rw [ledger_getElem txns first len i h, liquidUpTo_eq_calc]

theorem c2_month_ledger_consistency_witness :
    (getDailyBalancesForMonth [tx1, tx2] 11 10)[4]?
      = some ((calculateBalances [tx1, tx2] (some (11 + 4))).liquid) :=
  c2_month_ledger_consistency [tx1, tx2] 11 10 4 (by decide)

/-- C3: an Investment transaction passing the cutoff contributes liquid
delta 0 when its withdrawable flag is truthy and −amount otherwise, and
net-worth delta 0 in both cases, in the aggregator and in the ledger
sweep. -/
theorem c3_investment_deltas (t : Transaction) (txns : List Transaction)
    (td : Option Nat) (hty : t.type = "INVESTMENT")
    (hc : passesCutoff td t = true) :
    calculateBalances (t :: txns) td
        = ⟨(if truthy t.isWithdrawable then 0 else -t.amount)
              + (calculateBalances txns td).liquid,
           (calculateBalances txns td).netWorth⟩
      ∧ sweepDelta t = (if truthy t.isWithdrawable then 0 else -t.amount) := by
  have hdL : dL t = (if truthy t.isWithdrawable then 0 else -t.amount) := by
    simp [dL, hty]
  have hdN : dN t = 0 := by simp [dN, hty]
  constructor
  · rw [calc_cons_pos t txns td hc, hdL, hdN, zero_add]
  · by_cases hw : truthy t.isWithdrawable <;> simp [sweepDelta, hty, hw] <;> ring

theorem c3_investment_deltas_witness :
    calculateBalances (invLocked :: [tx1]) none
        = ⟨(if truthy invLocked.isWithdrawable then 0 else -invLocked.amount)
              + (calculateBalances [tx1] none).liquid,
           (calculateBalances [tx1] none).netWorth⟩
      ∧ sweepDelta invLocked
          = (if truthy invLocked.isWithdrawable then 0
              else -invLocked.amount) :=
  c3_investment_deltas invLocked [tx1] none rfl rfl

/-- C4: the aggregator with a cutoff sums exactly the transactions dated on
or before the cutoff (on-the-day included, strictly-after excluded), an
omitted cutoff includes everything, and for any date strictly later than
every transaction date the no-cutoff result equals the cutoff result. -/
theorem c4_cutoff_filter (txns : List Transaction) (c : Nat) :
    calculateBalances txns (some c)
        = calculateBalances (txns.filter (fun t => decide (t.date ≤ c))) none
      ∧ ((∀ t ∈ txns, t.date < c) →
          calculateBalances txns none = calculateBalances txns (some c)) := by
  have hnone : passesCutoff none = fun _ : Transaction => true := rfl
  have hsome : passesCutoff (some c)
      = fun t : Transaction => decide (t.date ≤ c) := rfl
  constructor
  · rw [calculateBalances_eq, calculateBalances_eq, hnone, hsome,
      List.filter_filter]
    simp
  · intro hall
    rw [calculateBalances_eq, calculateBalances_eq, hnone, hsome]
    have : txns.filter (fun t => decide (t.date ≤ c)) = txns := by
      apply List.filter_eq_self.mpr
      intro a ha
      simpa using Nat.le_of_lt (hall a ha)
    rw [this]
    simp

theorem c4_cutoff_filter_witness :
    (calculateBalances [tx1, tx2] (some 20)
        = calculateBalances
            ([tx1, tx2].filter (fun t => decide (t.date ≤ 20))) none)
      ∧ calculateBalances [tx1, tx2] none
          = calculateBalances [tx1, tx2] (some 20) :=
  ⟨(c4_cutoff_filter [tx1, tx2] 20).1,
   (c4_cutoff_filter [tx1, tx2] 20).2 (by decide)⟩

/-- C5: the uncontested classification rows — Income and Deposit add
+amount to both totals, Expense subtracts amount from both, BorrowIn
(LOAN_IN) adds +amount to liquid only, and Custom adds or subtracts amount
on both totals according to its isPositive flag. -/
theorem c5_classification_table (t : Transaction) (txns : List Transaction)
    (td : Option Nat) (hc : passesCutoff td t = true) :
    (t.type = "INCOME" ∨ t.type = "DEPOSIT" →
      calculateBalances (t :: txns) td
        = ⟨t.amount + (calculateBalances txns td).liquid,
           t.amount + (calculateBalances txns td).netWorth⟩)
    ∧ (t.type = "EXPENSE" →
      calculateBalances (t :: txns) td
        = ⟨-t.amount + (calculateBalances txns td).liquid,
           -t.amount + (calculateBalances txns td).netWorth⟩)
    ∧ (t.type = "LOAN_IN" →
      calculateBalances (t :: txns) td
        = ⟨t.amount + (calculateBalances txns td).liquid,
           (calculateBalances txns td).netWorth⟩)
    ∧ (t.type = "CUSTOM" → truthy t.isPositive = true →
      calculateBalances (t :: txns) td
        = ⟨t.amount + (calculateBalances txns td).liquid,
           t.amount + (calculateBalances txns td).netWorth⟩)
    ∧ (t.type = "CUSTOM" → truthy t.isPositive = false →
      calculateBalances (t :: txns) td
        = ⟨-t.amount + (calculateBalances txns td).liquid,
           -t.amount + (calculateBalances txns td).netWorth⟩) := by
  refine ⟨?_, ?_, ?_, ?_, ?_⟩
  · intro hty
    rw [calc_cons_pos t txns td hc]
    rcases hty with hty | hty <;> simp [dL, dN, hty]
  · intro hty
    rw [calc_cons_pos t txns td hc]
    simp [dL, dN, hty]
  · intro hty
    rw [calc_cons_pos t txns td hc]
    simp [dL, dN, hty]
  · intro hty hpos
    rw [calc_cons_pos t txns td hc]
    simp [dL, dN, hty, hpos]
  · intro hty hpos
    rw [calc_cons_pos t txns td hc]
    simp [dL, dN, hty, hpos]

theorem c5_classification_table_witness :
    calculateBalances (tx1 :: [tx2]) none
      = ⟨tx1.amount + (calculateBalances [tx2] none).liquid,
         tx1.amount + (calculateBalances [tx2] none).netWorth⟩ :=
  (c5_classification_table tx1 [tx2] none rfl).1 (Or.inl rfl)

/-- A transaction whose type string is outside the seven union members. -/
def unknownTx : Transaction :=
  { id := "u1", date := 4, amount := 77, type := "GIFT",
    description := "gift" }

/-- An Investment transaction whose `isWithdrawable` flag is absent. -/
def invNone : Transaction :=
  { id := "i2", date := 6, amount := 40, type := "INVESTMENT",
    description := "etf" }

/-- C6 counterexample: a Custom transaction with its `isPositive` flag
absent contributes −amount to both totals, not the zero contribution the
claim's missing-flag clause states. -/
theorem c6_missing_flag_counterexample :
    customNone.isPositive = none
      ∧ calculateBalances [customNone] none = ⟨-50, -50⟩
      ∧ calculateBalances [] none = ⟨0, 0⟩
      ∧ (⟨-50, -50⟩ : Balances) ≠ ⟨0, 0⟩ := by
  refine ⟨rfl, ?_, rfl, ?_⟩
  · simp [calculateBalances, applyTx, passesCutoff, customNone, truthy]
  · intro h
    rw [Balances.mk.injEq] at h
    exact absurd h.1 (by norm_num)

/-- C6 (amended): calculateBalances is total and never raises; a
transaction whose type is outside the seven known variants contributes zero
to both totals (and to the ledger sweep); a missing type-specific flag is
treated as the flag being false rather than as a zero contribution: a
flagless Investment contributes −amount to liquid, a flagless Custom
contributes −amount to both totals. -/
theorem c6_totality_amended (t : Transaction) (txns : List Transaction)
    (td : Option Nat) :
    (t.type ∉ knownTypes →
      calculateBalances (t :: txns) td = calculateBalances txns td
        ∧ sweepDelta t = 0)
    ∧ (passesCutoff td t = true → t.type = "INVESTMENT" →
        t.isWithdrawable = none →
        calculateBalances (t :: txns) td
          = ⟨-t.amount + (calculateBalances txns td).liquid,
             (calculateBalances txns td).netWorth⟩)
    ∧ (passesCutoff td t = true → t.type = "CUSTOM" → t.isPositive = none →
        calculateBalances (t :: txns) td
          = ⟨-t.amount + (calculateBalances txns td).liquid,
             -t.amount + (calculateBalances txns td).netWorth⟩) := by
  refine ⟨?_, ?_, ?_⟩
  · intro h
    obtain ⟨hdL, hdN, hsw⟩ := unknown_deltas t h
    refine ⟨?_, hsw⟩
    by_cases hc : passesCutoff td t = true
    · rw [calc_cons_pos t txns td hc, hdL, hdN, zero_add, zero_add]
    · exact calc_cons_neg t txns td hc
  · intro hc hty hflag
    rw [calc_cons_pos t txns td hc]
    simp [dL, dN, hty, hflag, truthy]
  · intro hc hty hflag
    rw [calc_cons_pos t txns td hc]
    simp [dL, dN, hty, hflag, truthy]

theorem c6_totality_amended_witness :
    (calculateBalances (unknownTx :: [tx1]) none = calculateBalances [tx1] none
        ∧ sweepDelta unknownTx = 0)
      ∧ calculateBalances (invNone :: []) none
          = ⟨-invNone.amount + (calculateBalances [] none).liquid,
             (calculateBalances [] none).netWorth⟩
      ∧ calculateBalances (customNone :: []) none
          = ⟨-customNone.amount + (calculateBalances [] none).liquid,
             -customNone.amount + (calculateBalances [] none).netWorth⟩ :=
  ⟨(c6_totality_amended unknownTx [tx1] none).1
      (by simp [knownTypes, unknownTx]),
   (c6_totality_amended invNone [] none).2.1 rfl rfl rfl,
   (c6_totality_amended customNone [] none).2.2 rfl rfl rfl⟩

/-- C7: a day of the month on which no transaction is dated repeats the
previous day's ledger value, and a transactionless day 1 shows the baseline
accumulated from the transactions dated strictly before the month. -/
theorem c7_carry_forward (txns : List Transaction) (first len i : Nat) :
    (i + 1 < len → (∀ t ∈ txns, t.date ≠ first + (i + 1)) →
      (getDailyBalancesForMonth txns first len)[i + 1]?
        = (getDailyBalancesForMonth txns first len)[i]?)
    ∧ (0 < len → (∀ t ∈ txns, t.date ≠ first) →
      (getDailyBalancesForMonth txns first len)[0]?
        = some (monthBaseline txns first)) := by
  constructor
  · intro hlt hno
    rw [ledger_getElem txns first len (i + 1) hlt,
      ledger_getElem txns first len i (by omega)]
    congr 1
    unfold liquidUpTo
    congr 1
    congr 1
    apply List.filter_congr
    intro a ha
    have hne := hno a ha
    rw [Bool.eq_iff_iff]
    simp only [decide_eq_true_eq]
    omega
  · intro hlen hno
    rw [ledger_getElem txns first len 0 hlen]
    congr 1
    unfold liquidUpTo monthBaseline
    congr 1
    congr 1
    apply List.filter_congr
    intro a ha
    have hne := hno a ha
    rw [Bool.eq_iff_iff]
    simp only [decide_eq_true_eq]
    omega

theorem c7_carry_forward_witness :
    ((getDailyBalancesForMonth [tx1, tx2] 10 10)[2]?
        = (getDailyBalancesForMonth [tx1, tx2] 10 10)[1]?)
      ∧ ((getDailyBalancesForMonth [tx1, tx2] 10 10)[0]?
          = some (monthBaseline [tx1, tx2] 10)) :=
  ⟨(c7_carry_forward [tx1, tx2] 10 10 1).1 (by omega) (by decide),
   (c7_carry_forward [tx1, tx2] 10 10 1).2 (by omega) (by decide)⟩

/-- C8: refuted on the code — `filteredSummary` counts a LOAN_REPAY amount
into totalExpense, although the classifier's liquid delta for LOAN_REPAY is
zero (the aggregator's switch has no case for it), so totalExpense is not
the sum of the amounts of the negative-liquid-delta transactions: on a
single LOAN_REPAY of amount 100 the summary shows 100 while that sum is
0. -/
theorem c8_loan_repay_summary_mismatch :
    (filteredSummary [repayTx]).totalExpense = 100
      ∧ negativeDeltaSum [repayTx] = 0
      ∧ positiveDeltaSum [repayTx] = 0
      ∧ (calculateBalances [repayTx] none).liquid = 0
      ∧ (100 : ℚ) ≠ 0 := by
  have hliq : (calculateBalances [repayTx] none).liquid = 0 := by
    simp [calculateBalances, applyTx, passesCutoff, repayTx]
  have hneg : (decide ((calculateBalances [repayTx] none).liquid < 0))
      = false := by
    rw [hliq]
    simp
  have hpos : (decide (0 < (calculateBalances [repayTx] none).liquid))
      = false := by
    rw [hliq]
    simp
  refine ⟨?_, ?_, ?_, hliq, by norm_num⟩
  · simp [filteredSummary, summaryStep, repayTx]
  · unfold negativeDeltaSum
    rw [List.filter_cons]
    simp [hneg]
  · unfold positiveDeltaSum
    rw [List.filter_cons]
    simp [hpos]

/-- C9: the aggregate fold is insensitive to input order — permuting the
transaction list leaves both totals unchanged (exact arithmetic). -/
theorem c9_permutation_invariance (txns txns2 : List Transaction)
    (td : Option Nat) (h : txns.Perm txns2) :
    calculateBalances txns td = calculateBalances txns2 td := by
  rw [calculateBalances_eq, calculateBalances_eq]
  have hf := h.filter (passesCutoff td)
  rw [(hf.map dL).sum_eq, (hf.map dN).sum_eq]

theorem c9_permutation_invariance_witness :
    calculateBalances [tx1, tx2] none = calculateBalances [tx2, tx1] none :=
  c9_permutation_invariance [tx1, tx2] [tx2, tx1] none
    (List.Perm.swap tx2 tx1 [])

/-- C10: an absent optional flag behaves exactly like `false` at the engine
boundary: defaulting absent flags to false changes neither
`calculateBalances` nor `getDailyBalancesForMonth`; an Investment with the
flag missing is treated as locked (liquid delta −amount) and a Custom with
`isPositive` missing as negative (−amount to both totals). -/
theorem c10_missing_flags_default_false (txns : List Transaction)
    (td : Option Nat) (first len : Nat) :
    calculateBalances (txns.map fillFlags) td = calculateBalances txns td
      ∧ getDailyBalancesForMonth (txns.map fillFlags) first len
          = getDailyBalancesForMonth txns first len
      ∧ (∀ t : Transaction, t.type = "INVESTMENT" → t.isWithdrawable = none →
          calculateBalances (t :: []) none = ⟨-t.amount, 0⟩)
      ∧ (∀ t : Transaction, t.type = "CUSTOM" → t.isPositive = none →
          calculateBalances (t :: []) none = ⟨-t.amount, -t.amount⟩) := by
  have h0 : passesCutoff td ∘ fillFlags = passesCutoff td :=
    funext fun t => rfl
  have h1 : dL ∘ fillFlags = dL := funext fun t => rfl
  have h2 : dN ∘ fillFlags = dN := funext fun t => rfl
  refine ⟨?_, ?_, ?_, ?_⟩
  · rw [calculateBalances_eq, calculateBalances_eq]
    simp only [List.filter_map, List.map_map, h0, h1, h2]
  · apply List.ext_getElem?
    intro n
    by_cases hn : n < len
    · rw [ledger_getElem _ first len n hn, ledger_getElem _ first len n hn,
        liquidUpTo_fillFlags]
    · rw [List.getElem?_eq_none, List.getElem?_eq_none]
      · rw [ledger_length]; omega
      · rw [ledger_length]; omega
  · intro t hty hflag
    rw [calc_cons_pos t [] none rfl]
    simp [dL, dN, hty, hflag, truthy, calculateBalances]
  · intro t hty hflag
    rw [calc_cons_pos t [] none rfl]
    simp [dL, dN, hty, hflag, truthy, calculateBalances]

theorem c10_missing_flags_default_false_witness :
    calculateBalances ([invNone, customNone, tx1].map fillFlags) none
        = calculateBalances [invNone, customNone, tx1] none
      ∧ getDailyBalancesForMonth ([invNone, customNone, tx1].map fillFlags) 1 8
          = getDailyBalancesForMonth [invNone, customNone, tx1] 1 8
      ∧ calculateBalances (invNone :: []) none = ⟨-invNone.amount, 0⟩
      ∧ calculateBalances (customNone :: []) none
          = ⟨-customNone.amount, -customNone.amount⟩ :=
  ⟨(c10_missing_flags_default_false [invNone, customNone, tx1] none 1 8).1,
   (c10_missing_flags_default_false [invNone, customNone, tx1] none 1 8).2.1,
   (c10_missing_flags_default_false [invNone, customNone, tx1] none 1 8).2.2.1
      invNone rfl rfl,
   (c10_missing_flags_default_false [invNone, customNone, tx1] none 1 8).2.2.2
      customNone rfl rfl⟩
